import Mathlib

set_option maxRecDepth 8000

/-!
Shallow embedding, in Lean 4, of the date/timeframe extraction engine of
`exactas-cal2org.py` (scraper turning an academic-calendar web page into an
Org-mode outline).  Pure functions of the source are translated to Lean
functions; code that can raise a Python exception is translated to
`PyResult`; the external collaborators (HTTP fetch, YAML load, HTML
traversal, the `dateparser` library) appear as explicit parameters or, for
`dateparser.parse`, as a definition modelled from the specification.
-/

/-- Python exceptions that the embedded code can raise. -/
inductive PyErr where
  | indexError
  | valueError
  | keyError
  | typeError
  | attributeError
  | unboundLocal
  | requestError
  | fileNotFound
  deriving DecidableEq, Repr

/-- Result of running a piece of the Python code: a value, or an uncaught
exception propagating out of it. -/
inductive PyResult (α : Type) where
  | ok (val : α)
  | raise (err : PyErr)
  deriving DecidableEq, Repr

/-- Python `str.lower` restricted to the characters the calendar uses
(ASCII plus the accented Spanish letters). -/
def pyLowerChar (c : Char) : Char :=
  if c = 'Á' then 'á' else if c = 'É' then 'é' else if c = 'Í' then 'í'
  else if c = 'Ó' then 'ó' else if c = 'Ú' then 'ú' else if c = 'Ñ' then 'ñ'
  else if c = 'Ü' then 'ü' else c.toLower

/-- Python upper-casing of a character, same character set. -/
def pyUpperChar (c : Char) : Char :=
  if c = 'á' then 'Á' else if c = 'é' then 'É' else if c = 'í' then 'Í'
  else if c = 'ó' then 'Ó' else if c = 'ú' then 'Ú' else if c = 'ñ' then 'Ñ'
  else if c = 'ü' then 'Ü' else c.toUpper

/-- Python `str.lower` on a whole string. -/
def pyLower (s : String) : String := String.mk (s.toList.map pyLowerChar)

/-- Embeds `DAYS` (source line 23). -/
def DAYS : List String :=
  ["lunes", "martes", "miércoles", "jueves", "viernes", "sábado", "domingo"]

/-- Embeds `MONTHS_DICT` (source lines 24-27); an association list keeps the
insertion order of the Python dict. -/
def MONTHS_DICT : List (String × String) :=
  [("enero", "01"), ("febrero", "02"), ("marzo", "03"), ("abril", "04"),
   ("mayo", "05"), ("junio", "06"), ("julio", "07"), ("agosto", "08"),
   ("septiembre", "09"), ("octubre", "10"), ("noviembre", "11"), ("diciembre", "12")]

/-! ### difflib

`correct_day_name` / `correct_month_name` call
`difflib.get_close_matches(word, possibilities, n=1)` (default cutoff 0.6).
The relevant difflib internals are embedded below.  The vocabulary entries
are far below difflib's autojunk threshold (length 200), so the junk
machinery of `SequenceMatcher` is inert and is omitted; with no junk the
three post-DP extension loops of `find_longest_match` can never fire
(a left or right extension would contradict maximality of the DP result),
so only the DP loop is embedded.  Float ratios are embedded as exact
rationals: for the tiny numerators/denominators that occur here the float
comparisons of difflib agree with the rational ones. -/

/-- Ascending positions of character `c` in `b` (difflib's `b2j`). -/
def indicesOf (c : Char) (b : List Char) : List Nat :=
  (List.range b.length).filter (fun j => b.getD j ' ' == c)

/-- Running best block of `find_longest_match`. -/
structure FlmState where
  besti : Nat
  bestj : Nat
  bestsize : Nat
  deriving DecidableEq, Repr

/-- One inner-loop step of `find_longest_match`: `j2len` is the DP row of the
previous `i`; the accumulator carries the new row plus the best block so far.
`k = j2len.get(j-1, 0) + 1`, guarding `j = 0` (Python reads index `-1`,
absent from the dict). -/
def flmStep (j2len : List (Nat × Nat)) (i : Nat)
    (acc : List (Nat × Nat) × FlmState) (j : Nat) : List (Nat × Nat) × FlmState :=
  let k := (if j = 0 then 0 else ((j2len.lookup (j - 1)).getD 0)) + 1
  let row := (j, k) :: acc.1
  let st := acc.2
  if st.bestsize < k then (row, ⟨i + 1 - k, j + 1 - k, k⟩) else (row, st)

/-- Embeds `SequenceMatcher.find_longest_match` on `a[alo:ahi]` x `b[blo:bhi]`
(junk-free case): returns `(besti, bestj, bestsize)`. -/
def findLongestMatch (a b : List Char) (alo ahi blo bhi : Nat) : Nat × Nat × Nat :=
  let res := (List.range' alo (ahi - alo)).foldl
    (fun (acc : List (Nat × Nat) × FlmState) i =>
      let js := (indicesOf (a.getD i ' ') b).filter
        (fun j => decide (blo ≤ j) && decide (j < bhi))
      js.foldl (flmStep acc.1 i) ([], acc.2))
    ([], ⟨alo, blo, 0⟩)
  (res.2.besti, res.2.bestj, res.2.bestsize)

/-- Total size of the matching blocks (the recursive queue processing of
`get_matching_blocks`, which only feeds `ratio` through the sum of the block
sizes).  Fuel-based recursion; `a.length + b.length + 1` fuel always
suffices since every recursive call strictly shrinks its rectangle. -/
def matchingTotal (a b : List Char) : Nat → Nat → Nat → Nat → Nat → Nat
  | 0, _, _, _, _ => 0
  | fuel + 1, alo, ahi, blo, bhi =>
    let r := findLongestMatch a b alo ahi blo bhi
    let i := r.1
    let j := r.2.1
    let k := r.2.2
    if k = 0 then 0
    else k
      + (if alo < i ∧ blo < j then matchingTotal a b fuel alo i blo j else 0)
      + (if i + k < ahi ∧ j + k < bhi then matchingTotal a b fuel (i + k) ahi (j + k) bhi else 0)

/-- Sum of matching-block sizes over the whole sequences. -/
def ratioM (a b : List Char) : Nat :=
  matchingTotal a b (a.length + b.length + 1) 0 a.length 0 b.length

/-- A ratio value `num/den` (`den` never 0).  difflib works with floats; at
the magnitudes occurring here (numerator and denominator at most a few tens)
the float comparisons difflib performs agree with the exact rational ones,
so ratios are embedded exactly. -/
structure Ratio where
  num : Nat
  den : Nat
  deriving DecidableEq, Repr

/-- Exact comparison `3/5 <= r` (difflib's default cutoff 0.6). -/
def cutoffLe (r : Ratio) : Bool := 3 * r.den ≤ 5 * r.num

/-- Exact comparison `r < s` by cross multiplication. -/
def ratioLt (r s : Ratio) : Bool := r.num * s.den < s.num * r.den

/-- Exact comparison `r = s` by cross multiplication. -/
def ratioEq (r s : Ratio) : Bool := r.num * s.den = s.num * r.den

/-- difflib's `_calculate_ratio`: `2.0 * matches / length`, and `1.0` when
`length` is zero. -/
def calcRatio (m len : Nat) : Ratio := if len = 0 then ⟨1, 1⟩ else ⟨2 * m, len⟩

/-- Embeds `SequenceMatcher.ratio()` with `a` = candidate, `b` = word. -/
def seqRatio (a b : List Char) : Ratio := calcRatio (ratioM a b) (a.length + b.length)

/-- Matches counted by `quick_ratio`: each element of `a` consumes one
availability unit of that element in `b` (difflib's `avail` dict, embedded
as an association list; counts can go negative, hence `Int`). -/
def quickM (a b : List Char) : Nat :=
  (a.foldl
    (fun (st : List (Char × Int) × Nat) c =>
      let numb : Int := match st.1.lookup c with
        | some v => v
        | none => (b.count c : Int)
      ((c, numb - 1) :: st.1, if 0 < numb then st.2 + 1 else st.2))
    ([], 0)).2

/-- Embeds `SequenceMatcher.quick_ratio()`. -/
def quickRatio (a b : List Char) : Ratio := calcRatio (quickM a b) (a.length + b.length)

/-- Embeds `SequenceMatcher.real_quick_ratio()`. -/
def realQuickRatio (a b : List Char) : Ratio :=
  calcRatio (min a.length b.length) (a.length + b.length)

/-- Python string comparison: lexicographic on code points. -/
def lexLt : List Char → List Char → Bool
  | [], [] => false
  | [], _ :: _ => true
  | _ :: _, [] => false
  | x :: xs, y :: ys =>
    if x.val < y.val then true else if y.val < x.val then false else lexLt xs ys

/-- Strict ordering used by `heapq.nlargest` on `(ratio, string)` pairs. -/
def scoredGt (p q : Ratio × String) : Bool :=
  ratioLt q.1 p.1 || (ratioEq p.1 q.1 && lexLt q.2.toList p.2.toList)

/-- Embeds `heapq.nlargest(1, l)`: the greatest pair, the earliest one kept on full
ties (full ties cannot occur here: the strings are distinct). -/
def nlargest1 : List (Ratio × String) → Option (Ratio × String)
  | [] => none
  | p :: ps => some (ps.foldl (fun best q => if scoredGt q best then q else best) p)

/-- Embeds `difflib.get_close_matches(word, possibilities, n=1)` with the default
cutoff `0.6`. -/
def get_close_matches1 (word : String) (possibilities : List String) : List String :=
  let scored := possibilities.filterMap (fun x =>
    let a := x.toList
    let b := word.toList
    if cutoffLe (realQuickRatio a b) && cutoffLe (quickRatio a b) && cutoffLe (seqRatio a b) then
      some (seqRatio a b, x)
    else none)
  match nlargest1 scored with
  | some p => [p.2]
  | none => []

/-- Embeds `correct_month_name` (source lines 56-74): `matches[0]` raises
`IndexError` when the match list is empty. -/
def correct_month_name (month_input : String) : PyResult String :=
  match get_close_matches1 month_input (MONTHS_DICT.map Prod.fst) with
  | [] => .raise .indexError
  | m :: _ => .ok m

/-- Embeds `correct_day_name` (source lines 76-93). -/
def correct_day_name (dayname_input : String) : PyResult String :=
  match get_close_matches1 dayname_input DAYS with
  | [] => .raise .indexError
  | d :: _ => .ok d

/-! ### The three date regexes

`get_date_or_timeframe` (source lines 95-168) uses
  `(\w+ \d{1,2} de \w+)`                       single date,
  `(\w+ \d{1,2}) al (\w+ \d{1,2} de \w+)`      range in one month,
  `(\w+ \d{1,2} de \w+) al (\w+ \d{1,2} de \w+)`  range across months,
and `parse_date_from_string` (292-307) uses `(\w+) (\d{1,2}) de (\w+)`.
In all four patterns every `\w+` and every `\d{1,2}` is followed by a
literal space (or ends the pattern), so the greedy maximal munch is the
only assignment a backtracking engine can accept at a given start
position: taking fewer characters leaves a word (resp. digit) character
where the pattern requires a space.  The matchers below therefore munch
maximally and never backtrack, and `re.search`'s leftmost-match rule
becomes: try every start position from the left, first success wins. -/

/-- Python `\d` on this input class. -/
def isDigitChar (c : Char) : Bool := c.isDigit

/-- Python `\w` (`re.UNICODE`) restricted to the character classes the
calendar page contains: ASCII alphanumerics, underscore, and the accented
Spanish letters. -/
def isWordChar (c : Char) : Bool :=
  c.isAlphanum || c == '_' ||
    (['á', 'é', 'í', 'ó', 'ú', 'ñ', 'ü', 'Á', 'É', 'Í', 'Ó', 'Ú', 'Ñ', 'Ü'].contains c)

/-- Longest run of word characters at the front, plus the remainder. -/
def spanWord : List Char → List Char × List Char
  | [] => ([], [])
  | c :: cs =>
    if isWordChar c then
      let r := spanWord cs
      (c :: r.1, r.2)
    else ([], c :: cs)

/-- Embeds `\w+`: nonempty maximal word run. -/
def takeWord (cs : List Char) : Option (List Char × List Char) :=
  match spanWord cs with
  | ([], _) => none
  | (c :: w, rest) => some (c :: w, rest)

/-- Embeds `\d{1,2}` in a context where a space must follow: greedily take two
digits when available, else one. -/
def takeDigits12 : List Char → Option (List Char × List Char)
  | [] => none
  | [c] => if isDigitChar c then some ([c], []) else none
  | c1 :: c2 :: rest =>
    if isDigitChar c1 then
      if isDigitChar c2 then some ([c1, c2], rest) else some ([c1], c2 :: rest)
    else none

/-- Literal fragment of a pattern. -/
def expectLit (lit : List Char) (cs : List Char) : Option (List Char) :=
  if lit.isPrefixOf cs then some (cs.drop lit.length) else none

/-- Embeds `\w+ \d{1,2} de \w+` at the current position; returns the three runs
plus the rest of the input. -/
def matchDateExprAt (cs : List Char) : Option ((List Char × List Char × List Char) × List Char) :=
  match takeWord cs with
  | none => none
  | some (w1, r1) =>
    match expectLit [' '] r1 with
    | none => none
    | some r2 =>
      match takeDigits12 r2 with
      | none => none
      | some (ds, r3) =>
        match expectLit [' ', 'd', 'e', ' '] r3 with
        | none => none
        | some r4 =>
          match takeWord r4 with
          | none => none
          | some (w2, r5) => some ((w1, ds, w2), r5)

/-- Embeds `(\w+ \d{1,2}) al (\w+ \d{1,2} de \w+)` at the current position;
returns the two capture groups. -/
def matchSameMonthAt (cs : List Char) : Option ((List Char × List Char) × (List Char × List Char × List Char)) :=
  match takeWord cs with
  | none => none
  | some (w1, r1) =>
    match expectLit [' '] r1 with
    | none => none
    | some r2 =>
      match takeDigits12 r2 with
      | none => none
      | some (ds, r3) =>
        match expectLit [' ', 'a', 'l', ' '] r3 with
        | none => none
        | some r4 =>
          match matchDateExprAt r4 with
          | none => none
          | some (g2, _) => some ((w1, ds), g2)

/-- Embeds `(\w+ \d{1,2} de \w+) al (\w+ \d{1,2} de \w+)` at the current position. -/
def matchCrossMonthAt (cs : List Char) : Option ((List Char × List Char × List Char) × (List Char × List Char × List Char)) :=
  match matchDateExprAt cs with
  | none => none
  | some (g1, r1) =>
    match expectLit [' ', 'a', 'l', ' '] r1 with
    | none => none
    | some r2 =>
      match matchDateExprAt r2 with
      | none => none
      | some (g2, _) => some (g1, g2)

/-- Embeds `re.search`: try the matcher at position 0, 1, ...; first success wins. -/
def searchFrom {α : Type} (f : List Char → Option α) : List Char → Option α
  | [] => f []
  | c :: cs =>
    match f (c :: cs) with
    | some x => some x
    | none => searchFrom f cs

/-- Text of a matched `\w+ \d{1,2} de \w+` expression. -/
def dateExprStr (g : List Char × List Char × List Char) : String :=
  String.mk (g.1 ++ ' ' :: g.2.1 ++ ' ' :: 'd' :: 'e' :: ' ' :: g.2.2)

/-- Text of a matched `\w+ \d{1,2}` group. -/
def dayNumStr (g : List Char × List Char) : String :=
  String.mk (g.1 ++ ' ' :: g.2)

/-- Embeds `re.search(regex_fecha_unica, s)`, group 1. -/
def searchSingle (s : String) : Option String :=
  (searchFrom matchDateExprAt s.toList).map (fun r => dateExprStr r.1)

/-- Embeds `re.search(regex_plazo_mismo_mes, s)`, groups 1 and 2. -/
def searchSameMonth (s : String) : Option (String × String) :=
  (searchFrom matchSameMonthAt s.toList).map (fun r => (dayNumStr r.1, dateExprStr r.2))

/-- Embeds `re.search(regex_plazo_diferente_mes, s)`, groups 1 and 2. -/
def searchCrossMonth (s : String) : Option (String × String) :=
  (searchFrom matchCrossMonthAt s.toList).map (fun r => (dateExprStr r.1, dateExprStr r.2))

/-- Embeds `re.search(regex_date, s)` of `parse_date_from_string`: the three
separate groups `(\w+) (\d{1,2}) de (\w+)`. -/
def searchGroups3 (s : String) : Option (String × String × String) :=
  (searchFrom matchDateExprAt s.toList).map
    (fun r => (String.mk r.1.1, String.mk r.1.2.1, String.mk r.1.2.2))

/-! ### get_date_or_timeframe -/

/-- A member of the `matches` list of `get_date_or_timeframe`: a 2-tuple
`(date, priority)` or a 3-tuple `(start, end, priority)`. -/
inductive Cand where
  | one (date : String) (prio : Nat)
  | two (startDate endDate : String) (prio : Nat)
  deriving DecidableEq, Repr

/-- The last component of the tuple (the sort key `x[-1]`). -/
def Cand.prio : Cand → Nat
  | .one _ p => p
  | .two _ _ p => p

/-- Stable insertion into a priority-ascending list. -/
def insertCand (c : Cand) : List Cand → List Cand
  | [] => [c]
  | x :: xs => if c.prio ≤ x.prio then c :: x :: xs else x :: insertCand c xs

/-- Embeds `matches.sort(key=lambda x: x[-1])`: stable ascending sort by the last
tuple component (the priorities occurring together are always distinct, so
any stable sort embeds `list.sort` faithfully). -/
def sortByPrio (l : List Cand) : List Cand := l.foldr insertCand []

/-- Embeds `" ".join(s.split()[-2:])`: `split()` splits on whitespace runs and
drops empties. -/
def splitWsGo (cur : List Char) : List Char → List (List Char)
  | [] => if cur.isEmpty then [] else [cur.reverse]
  | c :: cs =>
    if c.isWhitespace then
      if cur.isEmpty then splitWsGo [] cs else cur.reverse :: splitWsGo [] cs
    else splitWsGo (c :: cur) cs

/-- Python `s.split()`. -/
def splitWs (l : List Char) : List (List Char) := splitWsGo [] l

/-- Embeds `" ".join(s.split()[-2:])` (source line 159). -/
def lastTwoWords (s : String) : String :=
  let ws := splitWs s.toList
  String.intercalate " " ((ws.drop (ws.length - 2)).map String.mk)

/-- Embeds `get_date_or_timeframe` (source lines 95-168).  Each regex is tried; a
match contributes a candidate carrying its fixed priority number (single
date 3, same-month range 2, cross-month range 1); the candidates are sorted
ascending by that number and the head is taken.  A 2-tuple head means a
single date; a 3-tuple head with priority 2 gets the last two words of its
end expression appended to its start expression.  When nothing matched the
function prints a message and then evaluates the unassigned local `out`,
raising `UnboundLocalError`. -/
def get_date_or_timeframe (section_text : String) : PyResult (List String × Bool) :=
  let m1 : List Cand := match searchSingle section_text with
    | some d => [.one d 3]
    | none => []
  let m2 : List Cand := match searchSameMonth section_text with
    | some g => [.two g.1 g.2 2]
    | none => []
  let m3 : List Cand := match searchCrossMonth section_text with
    | some g => [.two g.1 g.2 1]
    | none => []
  match sortByPrio (m1 ++ m2 ++ m3) with
  | [] => .raise .unboundLocal
  | .one d _ :: _ => .ok ([d], true)
  | .two a b p :: _ =>
    if p = 2 then .ok ([a ++ " " ++ lastTwoWords b, b], false)
    else .ok ([a, b], false)

/-! ### Calendar dates and the date resolver -/

/-- A naive calendar date (Python `datetime.date`). -/
structure PyDate where
  year : Nat
  month : Nat
  day : Nat
  deriving DecidableEq, Repr

/-- Gregorian leap year. -/
def isLeapYear (y : Nat) : Bool := (y % 4 = 0 && y % 100 ≠ 0) || y % 400 = 0

/-- Days in a month. -/
def daysInMonth (y m : Nat) : Nat :=
  if m = 2 then (if isLeapYear y then 29 else 28)
  else if [1, 3, 5, 7, 8, 10, 12].contains m then 31
  else 30

/-- Numeric value of a digit string such as "05" or "15". -/
def digitsToNat (ds : List Char) : Nat :=
  ds.foldl (fun acc c => 10 * acc + (c.toNat - '0'.toNat)) 0

/-- A 1-2 character all-digit string (what `\d{1,2}` captures). -/
def digitsOk (ds : List Char) : Prop :=
  (∃ c, ds = [c] ∧ isDigitChar c = true) ∨
    (∃ c1 c2, ds = [c1, c2] ∧ isDigitChar c1 = true ∧ isDigitChar c2 = true)

/-- Numeric month code of a month name, read off `MONTHS_DICT`'s two-digit
string values. -/
def monthNumber (m : String) : Option Nat :=
  (MONTHS_DICT.lookup m).map (fun v => digitsToNat v.toList)

/-- Modelled from the spec: `dateparser.parse`, the external
natural-language date parser, which the source hands the reconstructed
phrase "dayname daynumber monthname" (the source drops the "de").  Per the
spec it parses the phrase in the expression's language and uses the current
run's year as the implied year; an unparsable phrase (unknown month name or
an impossible day of month) yields nothing.  Its code is a third-party
library, not part of this repository. -/
def dateparser_parse (current_year : Nat) (phrase : String) : Option PyDate :=
  match takeWord phrase.toList with
  | none => none
  | some (w1, r1) =>
    match expectLit [' '] r1 with
    | none => none
    | some r2 =>
      match takeDigits12 r2 with
      | none => none
      | some (ds, r3) =>
        match expectLit [' '] r3 with
        | none => none
        | some r4 =>
          match spanWord r4 with
          | (w2, []) =>
            if w2.isEmpty then none
            else
              match monthNumber (String.mk w2) with
              | none => none
              | some mc =>
                if String.mk w1 ∈ DAYS ∧ 1 ≤ digitsToNat ds ∧
                    digitsToNat ds ≤ daysInMonth current_year mc then
                  some ⟨current_year, mc, digitsToNat ds⟩
                else none
          | (_, _ :: _) => none

/-- Embeds `parse_date_from_string` (source lines 272-307).  A fragment that the
regex does not match leaves `coincidence = None` and `.groups()` raises
`AttributeError`; an unparsable reconstructed phrase makes
`dateparser.parse` return `None` and `.date()` raises `AttributeError`. -/
def parse_date_from_string (current_year : Nat) (date_in_text_format : String) : PyResult PyDate :=
  match searchGroups3 date_in_text_format with
  | none => .raise .attributeError
  | some (dayname0, daynumber, monthname0) =>
    match correct_day_name dayname0 with
    | .raise e => .raise e
    | .ok dayname =>
      match correct_month_name monthname0 with
      | .raise e => .raise e
      | .ok monthname =>
        let date_in_natural_language := dayname ++ " " ++ daynumber ++ " " ++ monthname
        match dateparser_parse current_year date_in_natural_language with
        | none => .raise .attributeError
        | some d => .ok d

/-! ### Output formatting -/

/-- Sakamoto-style weekday computation, `0 = Sunday`, matching
`datetime.date.strftime("%a")`'s C-locale abbreviations below. -/
def weekdayIndex (y m d : Nat) : Nat :=
  let yy := if m < 3 then y - 1 else y
  let t := [0, 3, 2, 5, 0, 3, 5, 1, 4, 6, 2, 4].getD (m - 1) 0
  (yy + yy / 4 + yy / 400 + t + d - yy / 100) % 7

/-- Embeds `%a` abbreviations in the C locale. -/
def weekdayAbbrev (dt : PyDate) : String :=
  ["Sun", "Mon", "Tue", "Wed", "Thu", "Fri", "Sat"].getD (weekdayIndex dt.year dt.month dt.day) ""

/-- Zero-padded two-digit field. -/
def pad2 (n : Nat) : String := if n < 10 then "0" ++ Nat.repr n else Nat.repr n

/-- Zero-padded four-digit year (`%Y`). -/
def pad4 (n : Nat) : String :=
  if n < 10 then "000" ++ Nat.repr n
  else if n < 100 then "00" ++ Nat.repr n
  else if n < 1000 then "0" ++ Nat.repr n
  else Nat.repr n

/-- Embeds `date.strftime("<%Y-%m-%d %a>")`; built with an explicit leading '<'
so that the first character is manifest. -/
def fmtDate (dt : PyDate) : String :=
  String.mk ('<' :: (pad4 dt.year ++ "-" ++ pad2 dt.month ++ "-" ++ pad2 dt.day ++ " "
    ++ weekdayAbbrev dt ++ ">").toList)

/-! ### Event section processor -/

/-- Contiguous-sublist test at any position. -/
def containsSubL (pat : List Char) : List Char → Bool
  | [] => pat.isEmpty
  | c :: cs => pat.isPrefixOf (c :: cs) || containsSubL pat cs

/-- Python `pat in line` (substring containment). -/
def containsSub (line pat : String) : Bool := containsSubL pat.toList line.toList

/-- Python `line.split(':')`: split on every colon, keeping empties. -/
def splitOnColonL : List Char → List (List Char)
  | [] => [[]]
  | c :: cs =>
    let r := splitOnColonL cs
    if c = ':' then [] :: r
    else
      match r with
      | [] => [[c]]
      | h :: t => (c :: h) :: t

/-- Embeds `line.split(':')` on strings. -/
def splitOnColon (s : String) : List String := (splitOnColonL s.toList).map String.mk

/-- Strip whitespace from both ends (Python `str.strip()`). -/
def pyStripL (l : List Char) : List Char :=
  ((l.dropWhile Char.isWhitespace).reverse.dropWhile Char.isWhitespace).reverse

/-- Python `str.strip()` on strings. -/
def pyStrip (s : String) : String := String.mk (pyStripL s.toList)

/-- Embeds `strip_event_affixes` (source lines 29-54): drop a leading "Semana de"
and a trailing "de cuatrimestre", stripping the leftover whitespace. -/
def strip_event_affixes (event_name : String) : String :=
  let e := event_name.toList
  let e := if ("Semana de".toList).isPrefixOf e then pyStripL (e.drop ("Semana de".toList).length) else e
  let e := if ("de cuatrimestre".toList).isSuffixOf e then
      pyStripL (e.take (e.length - ("de cuatrimestre".toList).length))
    else e
  String.mk e

/-- Embeds `normalize_event_casing` (source lines 253-270): `lower().capitalize()`. -/
def normalize_event_casing (event_name : String) : String :=
  match event_name.toList.map pyLowerChar with
  | [] => ""
  | c :: cs => String.mk (pyUpperChar c :: cs)

/-- The sentinel test chain of the section loop (source lines 364-369):
"Primera/Segunda/Tercera fecha" markers, first hit wins. -/
def sentinelSuffix (line : String) : Option String :=
  if containsSub line "Primera fecha" then some " (1ra fecha)"
  else if containsSub line "Segunda fecha" then some " (2da fecha)"
  else if containsSub line "Tercera fecha" then some " (3ra fecha)"
  else none

/-- What processing one section line produces. -/
inductive LineOut where
  | sentinel (newSuffix : String)
  | entry (title dateLine : String)
  deriving DecidableEq, Repr

/-- Embeds `parse_date_from_string` + `strftime` over each date of a timeframe
(the `for each_date in date_or_timeframe` loop, source lines 385-388). -/
def formatDates (current_year : Nat) : List String → PyResult (List String)
  | [] => .ok []
  | d :: ds =>
    match parse_date_from_string current_year d with
    | .raise e => .raise e
    | .ok dt =>
      match formatDates current_year ds with
      | .raise e => .raise e
      | .ok rest => .ok (fmtDate dt :: rest)

/-- Embeds `"-".join(l)`. -/
def joinDash : List String → String
  | [] => ""
  | [x] => x
  | x :: xs => x ++ "-" ++ joinDash xs

/-- The body of the per-line loop of
`create_org_contents_from_calendar_headers` (source lines 363-396), for one
line, given the exam suffix in force.  A sentinel line only updates the
suffix; otherwise `event_name, event_date_or_timeframe = line.split(':')`
raises `ValueError` unless the split has exactly two parts, and the entry
(title line and date line) is built.  Only the range branch strips the
event affixes. -/
def process_line (current_year : Nat) (cal_header_short_name suffix line : String) :
    PyResult LineOut :=
  match sentinelSuffix line with
  | some s => .ok (.sentinel s)
  | none =>
    match splitOnColon line with
    | [event_name, event_date_or_timeframe] =>
      match get_date_or_timeframe event_date_or_timeframe with
      | .raise e => .raise e
      | .ok (date_or_timeframe, is_single_date) =>
        if is_single_date then
          match date_or_timeframe with
          | [] => .raise .indexError
          | d0 :: _ =>
            match parse_date_from_string current_year d0 with
            | .raise e => .raise e
            | .ok dt =>
              let event_name := normalize_event_casing event_name
              .ok (.entry ("**** " ++ cal_header_short_name ++ " " ++ event_name ++ suffix)
                (fmtDate dt))
        else
          match formatDates current_year date_or_timeframe with
          | .raise e => .raise e
          | .ok period =>
            let event_name := strip_event_affixes event_name
            let event_name := normalize_event_casing event_name
            .ok (.entry ("**** " ++ cal_header_short_name ++ " " ++ event_name ++ suffix)
              (joinDash period))
    | _ => .raise .valueError

/-- The per-section loop: thread the exam suffix through the lines,
collecting the printed lines in order. -/
def runSection (current_year : Nat) (cal_header_short_name : String) :
    String → List String → PyResult (List String)
  | _, [] => .ok []
  | suffix, line :: rest =>
    match process_line current_year cal_header_short_name suffix line with
    | .raise e => .raise e
    | .ok (.sentinel s) => runSection current_year cal_header_short_name s rest
    | .ok (.entry t d) =>
      match runSection current_year cal_header_short_name suffix rest with
      | .raise e => .raise e
      | .ok out => .ok (t :: d :: out)

/-- Section bodies per configured header, with the suffix reset to the
empty string at the start of each section (source line 362). -/
def runHeaders (current_year : Nat) (sectionLines : String → List String) :
    List (String × String) → PyResult (List String)
  | [] => .ok []
  | (cal_header, shortName) :: rest =>
    match runSection current_year shortName "" (sectionLines cal_header) with
    | .raise e => .raise e
    | .ok sec =>
      match runHeaders current_year sectionLines rest with
      | .raise e => .raise e
      | .ok more => .ok (("*** " ++ cal_header) :: (sec ++ more))

/-- Embeds `create_org_contents_from_calendar_headers` (source lines 309-396),
with the HTML traversal `get_section_lines(soup, h)` supplied as the
collaborator function `sectionLines` and the printed lines collected. -/
def create_org_contents_from_calendar_headers (current_year : Nat)
    (sectionLines : String → List String) (cal_headers : List (String × String)) :
    PyResult (List String) :=
  match runHeaders current_year sectionLines cal_headers with
  | .raise e => .raise e
  | .ok body => .ok (("* " ++ Nat.repr current_year) :: "** FECHAS DE CURSADA Y DE FINALES" :: body)

/-! ### Holiday table rows -/

/-- Python `s.split("de")`: split on each non-overlapping occurrence of the
two-character separator, leftmost first. -/
def splitOnDeL : List Char → List (List Char)
  | 'd' :: 'e' :: rest => [] :: splitOnDeL rest
  | c :: cs =>
    match splitOnDeL cs with
    | [] => [[c]]
    | h :: t => (c :: h) :: t
  | [] => [[]]

/-- Embeds `s.split("de")` on strings. -/
def splitOnDe (s : String) : List String := (splitOnDeL s.toList).map String.mk

/-- Embeds `day_number.zfill(2)`. -/
def zfill2 (s : String) : String :=
  if s.toList.length < 2 then
    String.mk (List.replicate (2 - s.toList.length) '0' ++ s.toList)
  else s

/-- The date-formatting `try` block of `create_org_contents_from_holidays_header`
(source lines 468-475): unpack `date_in_text_format.split("de")` into two
stripped parts (`ValueError` caught as "Fecha inválida"), correct the month
name (`IndexError` is NOT caught by this `except`), then look the corrected
name up in `MONTHS_DICT` (`KeyError` caught as "Fecha inválida"). -/
def holiday_formatted_date (current_year : Nat) (date_in_text_format : String) :
    PyResult String :=
  match (splitOnDe date_in_text_format).map pyStrip with
  | [day_number, month_name0] =>
    match correct_month_name month_name0 with
    | .raise e => .raise e
    | .ok month_name =>
      match MONTHS_DICT.lookup (pyLower month_name) with
      | none => .ok "Fecha inválida"
      | some month_number =>
        .ok (Nat.repr current_year ++ "-" ++ month_number ++ "-" ++ zfill2 day_number)
  | _ => .ok "Fecha inválida"

/-! ### Configuration and the entry point -/

/-- Embeds `get_events_from_yaml_file` (source lines 398-422), given the loaded
YAML mapping: the cursada headers mapping when its key is present, the
semanas value when present, and whether holidays are included. -/
def get_events_from_yaml_file (all_headers : List (String × List (String × String))) :
    Option (List (String × String)) × Option (List (String × String)) × Bool :=
  (all_headers.lookup "FECHAS DE CURSADA Y DE FINALES",
   all_headers.lookup "SEMANAS DE LAS CIENCIAS",
   (all_headers.lookup "FERIADOS").isSome)

/-- Embeds `main` (source lines 425-446) followed by `sys.exit(main())`.  The
collaborators appear as parameters: `fetch` is the outcome of
`read_html_source_from_url` (which either raises — `requests.get` /
`raise_for_status` — or returns a soup, never `None`, so the
`if soup is None` branch of `main` is unreachable and the embedded value is
just `Unit`); `yaml_load` is the outcome of reading the YAML file (`raise`
for a missing/unreadable file, `none` for a YAML document that is not a
mapping, on which `in` raises `TypeError`); `sectionLines` is the HTML
traversal; `holidays` and `science` are the outcomes of the two remaining
emitters, which depend only on the page.  A `.raise` models an exception
propagating out of `main`. -/
def pymain (fetch : PyResult Unit)
    (yaml_load : PyResult (Option (List (String × List (String × String)))))
    (sectionLines : String → List String)
    (holidays science : PyResult (List String)) (current_year : Nat) : PyResult Nat :=
  match fetch with
  | .raise e => .raise e
  | .ok _ =>
    match yaml_load with
    | .raise e => .raise e
    | .ok none => .raise .typeError
    | .ok (some all_headers) =>
      let cfg := get_events_from_yaml_file all_headers
      match (match cfg.1 with
             | some headers_cursada =>
               create_org_contents_from_calendar_headers current_year sectionLines headers_cursada
             | none => .ok []) with
      | .raise e => .raise e
      | .ok _ =>
        match (if cfg.2.2 then holidays else .ok []) with
        | .raise e => .raise e
        | .ok _ =>
          match (match cfg.2.1 with
                 | some _ => science
                 | none => .ok []) with
          | .raise e => .raise e
          | .ok _ => .ok 0

/-- Process exit status of `sys.exit(main())`: the returned code on normal
return, and 1 when an uncaught exception aborts the interpreter. -/
def exitCode : PyResult Nat → Nat
  | .ok n => n
  | .raise _ => 1

/-- An output line shaped like an entry title: it starts with four stars. -/
def startsStars (s : String) : Prop := ∃ r, s.data = '*' :: '*' :: '*' :: '*' :: r

/-- The exam-suffix state machine read off a section, as the spec
describes it: starting from `suffix`, a sentinel line replaces the suffix
in force and emits nothing, and every other (data) line is emitted under
the suffix in force at that point, which persists until overwritten or the
section ends.  `entrySuffixes suffix lines` lists, for each data line in
order, the suffix in force when it is processed. -/
def entrySuffixes (suffix : String) : List String → List String
  | [] => []
  | l :: ls =>
    match sentinelSuffix l with
    | some s => entrySuffixes s ls
    | none => suffix :: entrySuffixes suffix ls

/-! ## Helper lemmas -/

theorem str_data_append (a b : String) : (a ++ b).data = a.data ++ b.data := rfl

theorem str_mk_data (s : String) : String.mk s.data = s := rfl

theorem str_mk_toList (s : String) : String.mk s.toList = s := rfl

/-! ## C1 -/

/-- Claim C1 (amended): whenever the cross-month-range pattern matches a
fragment, `get_date_or_timeframe` returns the cross-month interpretation —
the two matched range expressions with the single-date flag false — because
the candidate list is sorted ascending by its numeric key (single date 3,
same-month 2, cross-month 1) and the head is taken, so the cross-month
candidate wins over any single-date or same-month candidate. -/
theorem claim_C1_thm (s a b : String) (h : searchCrossMonth s = some (a, b)) :
    get_date_or_timeframe s = .ok ([a, b], false) := by
  simp only [get_date_or_timeframe, h]
  rcases h1 : searchSingle s with _ | d <;> rcases h2 : searchSameMonth s with _ | g <;> rfl

/-- Claim C1 witness: a concrete fragment with a cross-month range. -/
theorem claim_C1_witness :
    get_date_or_timeframe "lunes 10 de marzo al martes 28 de abril"
      = .ok (["lunes 10 de marzo", "martes 28 de abril"], false) :=
  claim_C1_thm "lunes 10 de marzo al martes 28 de abril" "lunes 10 de marzo"
    "martes 28 de abril" (by decide)

/-- Claim C1 counterexample: this fragment matches both the single-date
pattern and the cross-month-range pattern, yet `get_date_or_timeframe`
does NOT return a one-element list with the single-date flag true — it
returns the cross-month range. -/
theorem claim_C1_counterexample :
    searchSingle "lunes 10 de marzo al martes 28 de abril" = some "lunes 10 de marzo"
    ∧ searchCrossMonth "lunes 10 de marzo al martes 28 de abril"
        = some ("lunes 10 de marzo", "martes 28 de abril")
    ∧ get_date_or_timeframe "lunes 10 de marzo al martes 28 de abril"
        ≠ .ok (["lunes 10 de marzo"], true)
    ∧ get_date_or_timeframe "lunes 10 de marzo al martes 28 de abril"
        = .ok (["lunes 10 de marzo", "martes 28 de abril"], false) := by decide

/-! ## C2 -/

/-- Claim C2 (amended): for every fragment matching the same-month-range
pattern — provided the cross-month-range pattern does not also match —
`get_date_or_timeframe` synthesizes the start expression by appending the
last two words of the end expression to the start tokens; in particular
"lunes 10 al viernes 15 de marzo" yields "lunes 10 de marzo" and
"viernes 15 de marzo" with the single-date flag false. -/
theorem claim_C2_thm :
    (∀ s a b, searchSameMonth s = some (a, b) → searchCrossMonth s = none →
      get_date_or_timeframe s = .ok ([a ++ " " ++ lastTwoWords b, b], false))
    ∧ get_date_or_timeframe "lunes 10 al viernes 15 de marzo"
        = .ok (["lunes 10 de marzo", "viernes 15 de marzo"], false) := by
  constructor
  · intro s a b h1 h2
    simp only [get_date_or_timeframe, h1, h2]
    rcases h0 : searchSingle s with _ | d <;> rfl
  · decide

/-- Claim C2 witness for the universally quantified part. -/
theorem claim_C2_witness :
    get_date_or_timeframe "martes 3 al jueves 5 de abril"
      = .ok (["martes 3" ++ " " ++ lastTwoWords "jueves 5 de abril", "jueves 5 de abril"], false) :=
  claim_C2_thm.1 "martes 3 al jueves 5 de abril" "martes 3" "jueves 5 de abril"
    (by decide) (by decide)

/-- Claim C2 counterexample: this fragment matches the same-month-range
pattern, yet the returned pair is not the synthesized same-month one,
because the cross-month pattern also matches and wins. -/
theorem claim_C2_counterexample :
    searchSameMonth "lunes 1 al martes 2 de mayo al jueves 3 de junio"
      = some ("lunes 1", "martes 2 de mayo")
    ∧ get_date_or_timeframe "lunes 1 al martes 2 de mayo al jueves 3 de junio"
        = .ok (["martes 2 de mayo", "jueves 3 de junio"], false)
    ∧ ("martes 2 de mayo" : String) ≠ "lunes 1" ++ " " ++ lastTwoWords "martes 2 de mayo" := by
  decide

/-! ## C4 -/

/-- Claim C4: for a token with no close vocabulary match the lexical
corrector does NOT fail with an explicit unrecognized-token error — it
raises the unchecked `IndexError` from `matches[0]` on the empty match
list; tokens within a small edit distance of a vocabulary entry are
corrected to that entry. -/
theorem claim_C4_thm :
    correct_day_name "zzz" = .raise .indexError
    ∧ get_close_matches1 "zzz" DAYS = []
    ∧ correct_month_name "marzzo" = .ok "marzo"
    ∧ correct_day_name "marttes" = .ok "martes" := by decide

/-! ## C5 -/

/-- Claim C5: on a fragment matched by none of the three patterns,
`get_date_or_timeframe` does NOT surface a recoverable no-date-found
failure — after printing a generic message it evaluates the unassigned
local `out` and raises `UnboundLocalError`, which aborts the run. -/
theorem claim_C5_thm :
    searchSingle "Sin fecha en esta linea" = none
    ∧ searchSameMonth "Sin fecha en esta linea" = none
    ∧ searchCrossMonth "Sin fecha en esta linea" = none
    ∧ get_date_or_timeframe "Sin fecha en esta linea" = .raise .unboundLocal := by decide

/-! ## C8 -/

theorem gdot_raise_unboundLocal (s : String) (e : PyErr)
    (h : get_date_or_timeframe s = .raise e) : e = .unboundLocal := by
  unfold get_date_or_timeframe at h
  repeat' first
  | (split at h)
  | (dsimp only at h)
  all_goals first
  | (injection h with h'; exact h'.symm)
  | (simp at h)

theorem correct_day_name_raise (t : String) (e : PyErr)
    (h : correct_day_name t = .raise e) : e = .indexError := by
  unfold correct_day_name at h
  split at h
  · injection h with h'
    exact h'.symm
  · simp at h

theorem correct_month_name_raise (t : String) (e : PyErr)
    (h : correct_month_name t = .raise e) : e = .indexError := by
  unfold correct_month_name at h
  split at h
  · injection h with h'
    exact h'.symm
  · simp at h

theorem parse_date_raise (y : Nat) (d : String) (e : PyErr)
    (h : parse_date_from_string y d = .raise e) : e ≠ .valueError := by
  unfold parse_date_from_string at h
  repeat' first
  | (split at h)
  | (dsimp only at h)
  · injection h with h'
    subst h'
    decide
  · injection h with h'
    subst h'
    have hidx := correct_day_name_raise _ _ (by assumption)
    subst hidx
    decide
  · injection h with h'
    subst h'
    have hidx := correct_month_name_raise _ _ (by assumption)
    subst hidx
    decide
  · injection h with h'
    subst h'
    decide
  · simp at h

theorem formatDates_raise (y : Nat) (l : List String) (e : PyErr)
    (h : formatDates y l = .raise e) : e ≠ .valueError := by
  induction l generalizing e with
  | nil => simp [formatDates] at h
  | cons d ds ih =>
    unfold formatDates at h
    repeat' first
    | (split at h)
    | (dsimp only at h)
    all_goals first
    | (injection h with h'; subst h'; exact parse_date_raise _ _ _ (by assumption))
    | (injection h with h'; subst h'; exact ih _ (by assumption))
    | (simp at h)

/-- Claim C8 (amended): a non-sentinel section line is split on EVERY
colon and unpacked into exactly two names, so a line with more than one
colon — like a line with no colon — raises `ValueError` and is not
processed; only lines with exactly one colon proceed (and any later
failure of such a line is some other exception, never this
`ValueError`). -/
theorem claim_C8_thm :
    (∀ current_year sn suffix line, sentinelSuffix line = none →
      (splitOnColon line).length ≠ 2 →
      process_line current_year sn suffix line = .raise .valueError)
    ∧ (∀ current_year sn suffix line a b, splitOnColon line = [a, b] →
      process_line current_year sn suffix line ≠ .raise .valueError) := by
  constructor
  · intro y sn suffix line hs hl
    unfold process_line
    rw [hs]
    rcases hsp : splitOnColon line with _ | ⟨a, _ | ⟨b, _ | ⟨c, t⟩⟩⟩
    · rfl
    · rfl
    · exact absurd (by simp [hsp]) hl
    · rfl
  · intro y sn suffix line a b hsp hx
    unfold process_line at hx
    rw [hsp] at hx
    repeat' first
    | (split at hx)
    | (dsimp only at hx)
    all_goals first
    | (injection hx with hx'; exact absurd hx' (by decide))
    | (injection hx with hx'; exact absurd (gdot_raise_unboundLocal _ _ (by assumption))
        (by rw [hx']; decide))
    | (injection hx with hx'; exact absurd hx' (parse_date_raise _ _ _ (by assumption)))
    | (injection hx with hx'; exact absurd hx' (formatDates_raise _ _ _ (by assumption)))
    | (simp at hx)

/-- Claim C8 counterexample: a line with two colons is NOT processed using
the text after the first colon (which does contain a parsable date) — the
two-variable unpacking of `line.split(':')` raises `ValueError`. -/
theorem claim_C8_counterexample :
    splitOnColon "Final: extra: lunes 15 de marzo" = ["Final", " extra", " lunes 15 de marzo"]
    ∧ process_line 2026 "C" "" "Final: extra: lunes 15 de marzo" = .raise .valueError
    ∧ get_date_or_timeframe " extra: lunes 15 de marzo" = .ok (["lunes 15 de marzo"], true) := by
  decide

/-- Claim C8 witness. -/
theorem claim_C8_witness :
    process_line 2026 "C" "" "linea sin dos puntos" = .raise .valueError :=
  claim_C8_thm.1 2026 "C" "" "linea sin dos puntos" (by decide) (by decide)

/-! ## C9 -/

/-- Claim C9 (amended): `main` yields exit code 0 whenever it returns
normally; a fetch failure propagates as an uncaught exception, so the
process exits with code 1 (the explicit `return 1` branch is unreachable
since the fetch either raises or produces a page); a missing or unreadable
config file likewise aborts with exit code 1 (uncaught exception); but a
config mapping that contains none of the recognized section headers is NOT
fatal: `main` runs no emitter and returns exit code 0, contrary to the
claim's "no section configuration found aborts with exit code 1". -/
theorem claim_C9_thm :
    (∀ e yl sl ho sc y, exitCode (pymain (.raise e) yl sl ho sc y) = 1)
    ∧ (∀ e sl ho sc y, exitCode (pymain (.ok ()) (.raise e) sl ho sc y) = 1)
    ∧ (∀ sl ho sc y doc r, pymain (.ok ()) (.ok (some doc)) sl ho sc y = .ok r →
        exitCode (pymain (.ok ()) (.ok (some doc)) sl ho sc y) = 0)
    ∧ (∀ sl ho sc y, exitCode (pymain (.ok ()) (.ok (some [])) sl ho sc y) = 0) := by
  refine ⟨fun e yl sl ho sc y => rfl, fun e sl ho sc y => rfl, ?_, fun sl ho sc y => rfl⟩
  intro sl ho sc y doc r h
  have hr : r = 0 := by
    simp only [pymain] at h
    repeat' first
    | (split at h)
    | (dsimp only at h)
    all_goals first
    | (injection h with h'; exact h'.symm)
    | (simp at h)
  rw [h, hr]
  rfl

/-- Claim C9 counterexample: with the fetch succeeding and the YAML file
loading as a mapping with no recognized section header, no section
configuration is found, yet the run exits with code 0, not 1. -/
theorem claim_C9_counterexample :
    get_events_from_yaml_file [] = (none, none, false)
    ∧ exitCode (pymain (.ok ()) (.ok (some [])) (fun _ => []) (.ok []) (.ok []) 2026) = 0 :=
  ⟨rfl, rfl⟩

/-- Claim C9 witness. -/
theorem claim_C9_witness :
    exitCode (pymain (.ok ()) (.ok (some [])) (fun _ => []) (.ok []) (.ok []) 2026) = 0 :=
  claim_C9_thm.2.2.1 (fun _ => []) (.ok []) (.ok []) 2026 [] 0 rfl

/-! ## C10 -/

theorem foldl_pick_mem (ps : List (Ratio × String)) (p : Ratio × String) :
    ps.foldl (fun best q => if scoredGt q best then q else best) p ∈ p :: ps := by
  induction ps generalizing p with
  | nil => simp
  | cons q qs ih =>
    simp only [List.foldl_cons]
    cases hcond : scoredGt q p
    · have h2 := ih p
      simp only [hcond, Bool.false_eq_true, if_false]
      simp only [List.mem_cons] at h2 ⊢
      tauto
    · have h2 := ih q
      simp only [hcond, if_true]
      simp only [List.mem_cons] at h2 ⊢
      tauto

theorem nlargest1_mem (l : List (Ratio × String)) (p : Ratio × String)
    (h : nlargest1 l = some p) : p ∈ l := by
  cases l with
  | nil => cases h
  | cons q qs =>
    unfold nlargest1 at h
    injection h with h'
    exact h' ▸ foldl_pick_mem qs q

theorem get_close_matches1_mem (w : String) (poss : List String) (x : String)
    (xs : List String) (h : get_close_matches1 w poss = x :: xs) : x ∈ poss := by
  unfold get_close_matches1 at h
  dsimp only at h
  split at h
  · rename_i p hp
    injection h with h1 h2
    have hmem := nlargest1_mem _ _ hp
    rw [List.mem_filterMap] at hmem
    obtain ⟨a, ha, hfa⟩ := hmem
    split at hfa
    · injection hfa with hfa'
      rw [← h1, ← hfa']
      exact ha
    · cases hfa
  · cases h

/-- Claim C10: every value the lexical correctors return is a vocabulary
entry — a `DAYS` element or a `MONTHS_DICT` key — and the keys are already
lowercase, so in the holiday-table processor the lookup
`MONTHS_DICT[month_name.lower()]` on a corrected month name always
succeeds: given the two-way split of the date text and a successful month
correction, the row formats a real date, never the `KeyError` fallback. -/
theorem claim_C10_thm :
    (∀ t d, correct_day_name t = .ok d → d ∈ DAYS)
    ∧ (∀ t m, correct_month_name t = .ok m →
        (MONTHS_DICT.lookup (pyLower m)).isSome = true ∧ m ∈ MONTHS_DICT.map Prod.fst)
    ∧ (∀ current_year txt day_number month_name0 m,
        (splitOnDe txt).map pyStrip = [day_number, month_name0] →
        correct_month_name month_name0 = .ok m →
        ∃ month_number, MONTHS_DICT.lookup (pyLower m) = some month_number ∧
          holiday_formatted_date current_year txt
            = .ok (Nat.repr current_year ++ "-" ++ month_number ++ "-" ++ zfill2 day_number)) := by
  have hday : ∀ t d, correct_day_name t = .ok d → d ∈ DAYS := by
    intro t d h
    unfold correct_day_name at h
    split at h
    · cases h
    · rename_i m tail heq
      injection h with h'
      exact h' ▸ get_close_matches1_mem _ _ _ _ heq
  have hmonth : ∀ t m, correct_month_name t = .ok m →
      (MONTHS_DICT.lookup (pyLower m)).isSome = true ∧ m ∈ MONTHS_DICT.map Prod.fst := by
    intro t m h
    unfold correct_month_name at h
    split at h
    · cases h
    · rename_i m0 tail heq
      injection h with h'
      have hmem : m ∈ MONTHS_DICT.map Prod.fst := h' ▸ get_close_matches1_mem _ _ _ _ heq
      have hlu : ∀ x ∈ MONTHS_DICT.map Prod.fst,
          (MONTHS_DICT.lookup (pyLower x)).isSome = true := by decide
      exact ⟨hlu m hmem, hmem⟩
  refine ⟨hday, hmonth, ?_⟩
  intro current_year txt day_number month_name0 m hsplit hcorr
  have hlu := (hmonth _ _ hcorr).1
  rw [Option.isSome_iff_exists] at hlu
  obtain ⟨month_number, hmn⟩ := hlu
  refine ⟨month_number, hmn, ?_⟩
  simp only [holiday_formatted_date, hsplit, hcorr, hmn]

/-- Claim C10 witness. -/
theorem claim_C10_witness :
    ("lunes" ∈ DAYS)
    ∧ ((MONTHS_DICT.lookup (pyLower "marzo")).isSome = true
        ∧ "marzo" ∈ MONTHS_DICT.map Prod.fst)
    ∧ (∃ month_number, MONTHS_DICT.lookup (pyLower "abril") = some month_number ∧
        holiday_formatted_date 2026 "23 de abril"
          = .ok (Nat.repr 2026 ++ "-" ++ month_number ++ "-" ++ zfill2 "23")) :=
  ⟨claim_C10_thm.1 "lunes" "lunes" (by decide),
   claim_C10_thm.2.1 "marzzo" "marzo" (by decide),
   claim_C10_thm.2.2 2026 "23 de abril" "23" "abril" "abril" (by decide) (by decide)⟩

/-! ## C3 -/

theorem spanWord_append_cons (w : List Char) (c : Char) (rest : List Char)
    (hw : w.all isWordChar = true) (hc : isWordChar c = false) :
    spanWord (w ++ c :: rest) = (w, c :: rest) := by
  induction w with
  | nil => simp [spanWord, hc]
  | cons a w ih =>
    simp only [List.all_cons, Bool.and_eq_true] at hw
    simp [spanWord, hw.1, ih hw.2]

theorem spanWord_all (w : List Char) (hw : w.all isWordChar = true) :
    spanWord w = (w, []) := by
  induction w with
  | nil => rfl
  | cons a w ih =>
    simp only [List.all_cons, Bool.and_eq_true] at hw
    simp [spanWord, hw.1, ih hw.2]

theorem takeWord_append_cons (w : List Char) (c : Char) (rest : List Char)
    (hne : w ≠ []) (hw : w.all isWordChar = true) (hc : isWordChar c = false) :
    takeWord (w ++ c :: rest) = some (w, c :: rest) := by
  unfold takeWord
  rw [spanWord_append_cons w c rest hw hc]
  cases w with
  | nil => exact absurd rfl hne
  | cons a w0 => rfl

theorem takeWord_all (w : List Char) (hne : w ≠ []) (hw : w.all isWordChar = true) :
    takeWord w = some (w, []) := by
  unfold takeWord
  rw [spanWord_all w hw]
  cases w with
  | nil => exact absurd rfl hne
  | cons a w0 => rfl

theorem takeDigits12_space (ds : List Char) (rest : List Char) (hds : digitsOk ds) :
    takeDigits12 (ds ++ ' ' :: rest) = some (ds, ' ' :: rest) := by
  rcases hds with ⟨c, rfl, hc⟩ | ⟨c1, c2, rfl, hc1, hc2⟩
  · simp [takeDigits12, hc, show isDigitChar ' ' = false from by decide]
  · simp [takeDigits12, hc1, hc2]

theorem isPrefixOf_append (l rest : List Char) : l.isPrefixOf (l ++ rest) = true := by
  induction l with
  | nil => cases rest <;> rfl
  | cons c cs ih => simp [List.isPrefixOf, ih]

theorem expectLit_exact (lit rest : List Char) : expectLit lit (lit ++ rest) = some rest := by
  unfold expectLit
  rw [isPrefixOf_append]
  simp

/-- The single-date pattern matches a well-formed
"`<word> <digits> de <word>`" text exactly, consuming it whole. -/
theorem matchDateExpr_exact (w1 ds w2 : List Char)
    (h1 : w1 ≠ []) (hw1 : w1.all isWordChar = true) (hds : digitsOk ds)
    (h2 : w2 ≠ []) (hw2 : w2.all isWordChar = true) :
    matchDateExprAt (w1 ++ ' ' :: (ds ++ ' ' :: 'd' :: 'e' :: ' ' :: w2))
      = some ((w1, ds, w2), []) := by
  unfold matchDateExprAt
  rw [takeWord_append_cons w1 ' ' _ h1 hw1 (by decide)]
  dsimp only
  rw [show (' ' :: (ds ++ ' ' :: 'd' :: 'e' :: ' ' :: w2))
      = [' '] ++ (ds ++ ' ' :: 'd' :: 'e' :: ' ' :: w2) from rfl,
    expectLit_exact]
  dsimp only
  rw [takeDigits12_space ds _ hds]
  dsimp only
  rw [show (' ' :: 'd' :: 'e' :: ' ' :: w2) = [' ', 'd', 'e', ' '] ++ w2 from rfl,
    expectLit_exact]
  dsimp only
  rw [takeWord_all w2 h2 hw2]

theorem searchFrom_of_head {α : Type} (f : List Char → Option α) (l : List Char) (x : α)
    (h : f l = some x) : searchFrom f l = some x := by
  cases l with
  | nil => exact h
  | cons c cs =>
    unfold searchFrom
    rw [h]

theorem str_data_mk (l : List Char) : (String.mk l).data = l := rfl

theorem lookup_mem_keys (l : List (String × String)) (k : String) (v : String)
    (h : l.lookup k = some v) : k ∈ l.map Prod.fst := by
  induction l with
  | nil => cases h
  | cons p t ih =>
    unfold List.lookup at h
    split at h
    · rename_i hbeq
      simp only [List.map_cons, List.mem_cons]
      exact Or.inl (eq_of_beq hbeq)
    · simp only [List.map_cons, List.mem_cons]
      exact Or.inr (ih h)

theorem day_facts : ∀ d ∈ DAYS, d.data ≠ [] ∧ d.data.all isWordChar = true := by decide

theorem month_facts : ∀ m ∈ MONTHS_DICT.map Prod.fst,
    m.data ≠ [] ∧ m.data.all isWordChar = true := by decide

/-- An exact vocabulary token is its own best fuzzy correction. -/
theorem correct_day_exact : ∀ d ∈ DAYS, correct_day_name d = .ok d := by decide

/-- An exact vocabulary token is its own best fuzzy correction. -/
theorem correct_month_exact : ∀ m ∈ MONTHS_DICT.map Prod.fst,
    correct_month_name m = .ok m := by decide

/-- The regex of `parse_date_from_string` on a well-formed single-date
expression built from vocabulary-shaped words yields the three groups. -/
theorem searchGroups3_exact (d m : String) (ds : List Char)
    (h1 : d.data ≠ []) (hw1 : d.data.all isWordChar = true) (hds : digitsOk ds)
    (h2 : m.data ≠ []) (hw2 : m.data.all isWordChar = true) :
    searchGroups3 (d ++ " " ++ String.mk ds ++ " de " ++ m) = some (d, String.mk ds, m) := by
  unfold searchGroups3
  have hlist : (d ++ " " ++ String.mk ds ++ " de " ++ m).toList
      = d.data ++ ' ' :: (ds ++ ' ' :: 'd' :: 'e' :: ' ' :: m.data) := by
    simp only [String.toList, str_data_append, str_data_mk,
      show (" " : String).data = [' '] from rfl,
      show (" de " : String).data = [' ', 'd', 'e', ' '] from rfl, List.append_assoc,
      List.cons_append, List.nil_append]
  rw [hlist, searchFrom_of_head _ _ _ (matchDateExpr_exact d.data ds m.data h1 hw1 hds h2 hw2)]
  rfl

/-- The spec-modelled date parser on the reconstructed phrase. -/
theorem dateparser_parse_exact (current_year : Nat) (d m : String) (ds : List Char) (mc : Nat)
    (hd : d ∈ DAYS) (hm : monthNumber m = some mc)
    (hw1 : d.data ≠ [] ∧ d.data.all isWordChar = true)
    (hw2 : m.data ≠ [] ∧ m.data.all isWordChar = true) (hds : digitsOk ds)
    (hn1 : 1 ≤ digitsToNat ds) (hn2 : digitsToNat ds ≤ daysInMonth current_year mc) :
    dateparser_parse current_year (d ++ " " ++ String.mk ds ++ " " ++ m)
      = some ⟨current_year, mc, digitsToNat ds⟩ := by
  unfold dateparser_parse
  have hlist : (d ++ " " ++ String.mk ds ++ " " ++ m).toList
      = d.data ++ ' ' :: (ds ++ ' ' :: m.data) := by
    simp only [String.toList, str_data_append, str_data_mk,
      show (" " : String).data = [' '] from rfl, List.append_assoc,
      List.cons_append, List.nil_append]
  rw [hlist, takeWord_append_cons d.data ' ' _ hw1.1 hw1.2 (by decide)]
  dsimp only
  rw [show (' ' :: (ds ++ ' ' :: m.data)) = [' '] ++ (ds ++ ' ' :: m.data) from rfl,
    expectLit_exact]
  dsimp only
  rw [takeDigits12_space ds _ hds]
  dsimp only
  rw [show (' ' :: m.data) = [' '] ++ m.data from rfl, expectLit_exact]
  dsimp only
  rw [spanWord_all m.data hw2.2]
  dsimp only
  have hne : m.data.isEmpty = false := by
    cases hx : m.data with
    | nil => exact absurd hx hw2.1
    | cons a t => rfl
  simp only [hne, Bool.false_eq_true, if_false]
  rw [str_mk_data, hm]
  dsimp only
  rw [if_pos ⟨(str_mk_data d).symm ▸ hd, hn1, hn2⟩]

/-- Claim C3: for every valid single-date expression
"`<day-name> <digits> de <month-name>`" with correctly spelled vocabulary
tokens and a day number that exists in that month, `parse_date_from_string`
returns the calendar date whose day-of-month is the written number, whose
month is the numeric code of the month name in the vocabulary, and whose
year is the current run's year. -/
theorem claim_C3_thm (current_year : Nat) (d m : String) (ds : List Char) (mc : Nat)
    (hd : d ∈ DAYS) (hm : monthNumber m = some mc) (hds : digitsOk ds)
    (hn1 : 1 ≤ digitsToNat ds) (hn2 : digitsToNat ds ≤ daysInMonth current_year mc) :
    parse_date_from_string current_year (d ++ " " ++ String.mk ds ++ " de " ++ m)
      = .ok ⟨current_year, mc, digitsToNat ds⟩ := by
  have hdf := day_facts d hd
  have hmv : ∃ v, MONTHS_DICT.lookup m = some v := by
    unfold monthNumber at hm
    cases hx : MONTHS_DICT.lookup m with
    | none => rw [hx] at hm; cases hm
    | some v => exact ⟨v, rfl⟩
  obtain ⟨v, hv⟩ := hmv
  have hmm : m ∈ MONTHS_DICT.map Prod.fst := lookup_mem_keys _ _ _ hv
  have hmf := month_facts m hmm
  unfold parse_date_from_string
  rw [searchGroups3_exact d m ds hdf.1 hdf.2 hds hmf.1 hmf.2]
  dsimp only
  rw [correct_day_exact d hd]
  dsimp only
  rw [correct_month_exact m hmm]
  dsimp only
  rw [dateparser_parse_exact current_year d m ds mc hd hm hdf hmf hds hn1 hn2]

/-- Claim C3 witness: "lunes 15 de marzo". -/
theorem claim_C3_witness :
    parse_date_from_string 2026 ("lunes" ++ " " ++ String.mk ['1', '5'] ++ " de " ++ "marzo")
      = .ok ⟨2026, 3, 15⟩ :=
  claim_C3_thm 2026 "lunes" "marzo" ['1', '5'] 3 (by decide) (by decide)
    (Or.inr ⟨'1', '5', rfl, by decide, by decide⟩) (by decide) (by decide)

/-! ## C6 -/

/-- Claim C6 (amended): an emitted range entry has its event label
affix-stripped and then casing-normalized, but an emitted single-date entry
is only casing-normalized — the single-date branch never strips the
decorative affixes. -/
theorem claim_C6_thm :
    (∀ current_year sn suffix line nm dtext ds t dl,
      sentinelSuffix line = none →
      splitOnColon line = [nm, dtext] →
      get_date_or_timeframe dtext = .ok (ds, false) →
      process_line current_year sn suffix line = .ok (.entry t dl) →
      t = "**** " ++ sn ++ " " ++ normalize_event_casing (strip_event_affixes nm) ++ suffix)
    ∧ (∀ current_year sn suffix line nm dtext ds t dl,
      sentinelSuffix line = none →
      splitOnColon line = [nm, dtext] →
      get_date_or_timeframe dtext = .ok (ds, true) →
      process_line current_year sn suffix line = .ok (.entry t dl) →
      t = "**** " ++ sn ++ " " ++ normalize_event_casing nm ++ suffix) := by
  constructor
  · intro y sn suffix line nm dtext ds t dl hsent hsp hg hp
    unfold process_line at hp
    rw [hsent, hsp] at hp
    dsimp only at hp
    rw [hg] at hp
    dsimp only at hp
    rw [if_neg (by decide : ¬(false = true))] at hp
    rcases hf : formatDates y ds with period | e
    · rw [hf] at hp
      dsimp only at hp
      injection hp with hp'
      injection hp' with h1 h2
      exact h1.symm
    · rw [hf] at hp
      simp at hp
  · intro y sn suffix line nm dtext ds t dl hsent hsp hg hp
    unfold process_line at hp
    rw [hsent, hsp] at hp
    dsimp only at hp
    rw [hg] at hp
    dsimp only at hp
    rw [if_pos rfl] at hp
    rcases ds with _ | ⟨d0, dr⟩
    · simp at hp
    · dsimp only at hp
      rcases hpd : parse_date_from_string y d0 with dt | e
      · rw [hpd] at hp
        dsimp only at hp
        injection hp with hp'
        injection hp' with h1 h2
        exact h1.symm
      · rw [hpd] at hp
        simp at hp

/-- Claim C6 counterexample: a single-date line with a decorative prefix
keeps the prefix in the emitted title — the single-date branch never calls
the affix stripper, unlike the range branch. -/
theorem claim_C6_counterexample :
    process_line 2026 "CAL" "" "Semana de Exámenes: lunes 15 de marzo"
      = .ok (.entry "**** CAL Semana de exámenes" "<2026-03-15 Sun>")
    ∧ normalize_event_casing (strip_event_affixes "Semana de Exámenes") = "Exámenes"
    ∧ ("**** CAL Semana de exámenes" : String) ≠ "**** CAL Exámenes" := by decide

/-- Claim C6 witness (range branch, affixes stripped). -/
theorem claim_C6_witness :
    ("**** CAL Exámenes" : String)
      = "**** " ++ "CAL" ++ " "
        ++ normalize_event_casing (strip_event_affixes "Semana de Exámenes") ++ "" :=
  claim_C6_thm.1 2026 "CAL" "" "Semana de Exámenes: lunes 10 al viernes 15 de marzo"
    "Semana de Exámenes" " lunes 10 al viernes 15 de marzo"
    ["lunes 10 de marzo", "viernes 15 de marzo"]
    "**** CAL Exámenes" "<2026-03-10 Tue>-<2026-03-15 Sun>"
    (by decide) (by decide) (by decide) (by decide)

/-! ## C7 -/

theorem formatDates_head_lt (y : Nat) (l : List String) (fs : List String)
    (h : formatDates y l = .ok fs) : ∀ f ∈ fs, ∃ r, f.data = '<' :: r := by
  induction l generalizing fs with
  | nil =>
    unfold formatDates at h
    injection h with h'
    subst h'
    intro f hf
    cases hf
  | cons d dsx ih =>
    unfold formatDates at h
    rcases hp : parse_date_from_string y d with dt | e
    · rw [hp] at h
      dsimp only at h
      rcases hrest : formatDates y dsx with rest | e
      · rw [hrest] at h
        dsimp only at h
        injection h with h'
        subst h'
        intro f hf
        rcases List.mem_cons.mp hf with rfl | hmem
        · exact ⟨_, rfl⟩
        · exact ih rest hrest f hmem
      · rw [hrest] at h
        simp at h
    · rw [hp] at h
      simp at h

theorem joinDash_data (x : String) (xs : List String) :
    ∃ q, (joinDash (x :: xs)).data = x.data ++ q := by
  cases xs with
  | nil => exact ⟨[], by simp [joinDash]⟩
  | cons y ys =>
    refine ⟨("-" ++ joinDash (y :: ys)).data, ?_⟩
    simp [joinDash, str_data_append]

theorem process_line_no_sentinel (y : Nat) (sn suffix line : String)
    (hl : sentinelSuffix line = none) (s : String) :
    process_line y sn suffix line ≠ .ok (.sentinel s) := by
  intro hx
  unfold process_line at hx
  rw [hl] at hx
  repeat' first
  | (dsimp only at hx)
  | (split at hx)
  all_goals simp_all

theorem title_startsStars (sn name suffix : String) :
    startsStars ("**** " ++ sn ++ " " ++ name ++ suffix) := by
  refine ⟨' ' :: (sn.data ++ ' ' :: (name.data ++ suffix.data)), ?_⟩
  simp [str_data_append, show ("**** " : String).data = ['*', '*', '*', '*', ' '] from rfl,
    show (" " : String).data = [' '] from rfl]

theorem process_line_entry_shape (y : Nat) (sn suffix line t dl : String)
    (hp : process_line y sn suffix line = .ok (.entry t dl)) :
    (∃ p, t = p ++ suffix) ∧ startsStars t ∧ ¬ startsStars dl := by
  unfold process_line at hp
  rcases hsent : sentinelSuffix line with _ | s
  · rw [hsent] at hp
    dsimp only at hp
    rcases hsp : splitOnColon line with _ | ⟨nm, _ | ⟨dtext, _ | ⟨c3, tl⟩⟩⟩ <;> rw [hsp] at hp
    · simp at hp
    · simp at hp
    · dsimp only at hp
      rcases hg : get_date_or_timeframe dtext with ⟨ds, bsing⟩ | e
      · rw [hg] at hp
        dsimp only at hp
        cases bsing
        · rw [if_neg (by decide : ¬(false = true))] at hp
          rcases hf : formatDates y ds with period | e
          · rw [hf] at hp
            dsimp only at hp
            injection hp with hp'
            injection hp' with h1 h2
            refine ⟨⟨_, h1.symm⟩, h1 ▸ title_startsStars sn _ suffix, ?_⟩
            intro hst
            obtain ⟨r, hr⟩ := hst
            rw [← h2] at hr
            cases period with
            | nil => simp [joinDash] at hr
            | cons x xs =>
              obtain ⟨q, hq⟩ := joinDash_data x xs
              obtain ⟨rx, hrx⟩ := formatDates_head_lt y ds _ hf x (List.mem_cons_self _ _)
              rw [hq, hrx] at hr
              simp at hr
          · rw [hf] at hp
            simp at hp
        · rw [if_pos rfl] at hp
          rcases ds with _ | ⟨d0, dr⟩
          · simp at hp
          · dsimp only at hp
            rcases hpd : parse_date_from_string y d0 with dt | e
            · rw [hpd] at hp
              dsimp only at hp
              injection hp with hp'
              injection hp' with h1 h2
              refine ⟨⟨_, h1.symm⟩, h1 ▸ title_startsStars sn _ suffix, ?_⟩
              intro hst
              obtain ⟨r, hr⟩ := hst
              rw [← h2] at hr
              simp [fmtDate] at hr
            · rw [hpd] at hp
              simp at hp
      · rw [hg] at hp
        simp at hp
    · simp at hp
  · rw [hsent] at hp
    simp at hp

theorem runSection_suffix_applied (y : Nat) (sn suffix : String) :
    ∀ (lines : List String) (out : List String),
      (∀ l ∈ lines, sentinelSuffix l = none) →
      runSection y sn suffix lines = .ok out →
      ∀ t ∈ out, startsStars t → ∃ p, t = p ++ suffix := by
  intro lines
  induction lines with
  | nil =>
    intro out hns h
    unfold runSection at h
    injection h with h'
    subst h'
    intro t ht
    cases ht
  | cons l ls ih =>
    intro out hns h
    have hl : sentinelSuffix l = none := hns l (List.mem_cons_self _ _)
    unfold runSection at h
    rcases hp : process_line y sn suffix l with lo | e
    · rw [hp] at h
      rcases lo with s | ⟨t0, d0⟩
      · exact absurd hp (process_line_no_sentinel y sn suffix l hl s)
      · dsimp only at h
        rcases hrest : runSection y sn suffix ls with rest | e
        · rw [hrest] at h
          dsimp only at h
          injection h with h'
          subst h'
          have hshape := process_line_entry_shape y sn suffix l t0 d0 hp
          intro t ht
          rcases List.mem_cons.mp ht with rfl | ht2
          · intro _
            exact hshape.1
          · rcases List.mem_cons.mp ht2 with rfl | ht3
            · intro hst
              exact absurd hst hshape.2.2
            · exact ih rest (fun x hx => hns x (List.mem_cons_of_mem _ hx)) hrest t ht3
        · rw [hrest] at h
          simp at h
    · rw [hp] at h
      simp at h

/-- The full output/state correspondence of a section run, for an
arbitrary interleaving of sentinel and data lines: a successful run emits
exactly one (title, date) pair per data line, in order, and each title
ends with the suffix in force at that data line — the suffix set by the
most recent preceding sentinel (or the starting suffix), persisting until
overwritten or the section ends. -/
theorem runSection_entries (y : Nat) (sn : String) :
    ∀ (lines : List String) (suffix : String) (out : List String),
      runSection y sn suffix lines = .ok out →
      ∃ entries : List (String × String),
        out = entries.flatMap (fun e => [e.1, e.2]) ∧
        List.Forall₂
          (fun suf e => (∃ p, e.1 = p ++ suf) ∧ startsStars e.1 ∧ ¬ startsStars e.2)
          (entrySuffixes suffix lines) entries := by
  intro lines
  induction lines with
  | nil =>
    intro suffix out h
    unfold runSection at h
    injection h with h'
    subst h'
    exact ⟨[], rfl, List.Forall₂.nil⟩
  | cons l ls ih =>
    intro suffix out h
    unfold runSection at h
    rcases hsent : sentinelSuffix l with _ | s
    · rcases hp : process_line y sn suffix l with lo | e
      · rw [hp] at h
        rcases lo with s0 | ⟨t0, d0⟩
        · exact absurd hp (process_line_no_sentinel y sn suffix l hsent s0)
        · dsimp only at h
          rcases hrest : runSection y sn suffix ls with rest | e
          · rw [hrest] at h
            dsimp only at h
            injection h with h'
            subst h'
            obtain ⟨entries, hout, hfa⟩ := ih suffix rest hrest
            have hshape := process_line_entry_shape y sn suffix l t0 d0 hp
            refine ⟨(t0, d0) :: entries, ?_, ?_⟩
            · rw [hout]
              rfl
            · have he : entrySuffixes suffix (l :: ls) = suffix :: entrySuffixes suffix ls := by
                simp only [entrySuffixes, hsent]
              rw [he]
              exact List.Forall₂.cons hshape hfa
          · rw [hrest] at h
            simp at h
      · rw [hp] at h
        simp at h
    · have hp : process_line y sn suffix l = .ok (.sentinel s) := by
        unfold process_line
        rw [hsent]
      rw [hp] at h
      dsimp only at h
      have he : entrySuffixes suffix (l :: ls) = entrySuffixes s ls := by
        simp only [entrySuffixes, hsent]
      rw [he]
      exact ih s out h

/-- Claim C7: the exam-suffix state starts empty at the beginning of each
section; a sentinel line only replaces the suffix and emits nothing; the
three sentinel markers map to their tags in elif order; every emitted
title line ends with the suffix in force; and, for an arbitrary
interleaving of sentinel and data lines, the output is one (title, date)
pair per data line whose title carries the suffix in force at that line —
set by the most recent preceding sentinel and persisting until overwritten
or the section ends. -/
theorem claim_C7_thm :
    (∀ current_year sectionLines hdr sn sec,
      runSection current_year sn "" (sectionLines hdr) = .ok sec →
      create_org_contents_from_calendar_headers current_year sectionLines [(hdr, sn)]
        = .ok (("* " ++ Nat.repr current_year) :: "** FECHAS DE CURSADA Y DE FINALES"
            :: ("*** " ++ hdr) :: sec))
    ∧ (∀ current_year sn suffix line rest s, sentinelSuffix line = some s →
      runSection current_year sn suffix (line :: rest) = runSection current_year sn s rest)
    ∧ (∀ line, containsSub line "Primera fecha" = true →
        sentinelSuffix line = some " (1ra fecha)")
    ∧ (∀ line, containsSub line "Primera fecha" = false →
        containsSub line "Segunda fecha" = true →
        sentinelSuffix line = some " (2da fecha)")
    ∧ (∀ line, containsSub line "Primera fecha" = false →
        containsSub line "Segunda fecha" = false →
        containsSub line "Tercera fecha" = true →
        sentinelSuffix line = some " (3ra fecha)")
    ∧ (∀ current_year sn suffix lines out,
        (∀ l ∈ lines, sentinelSuffix l = none) →
        runSection current_year sn suffix lines = .ok out →
        ∀ t ∈ out, startsStars t → ∃ p, t = p ++ suffix)
    ∧ (∀ current_year sn suffix lines out,
        runSection current_year sn suffix lines = .ok out →
        ∃ entries : List (String × String),
          out = entries.flatMap (fun e => [e.1, e.2]) ∧
          List.Forall₂
            (fun suf e => (∃ p, e.1 = p ++ suf) ∧ startsStars e.1 ∧ ¬ startsStars e.2)
            (entrySuffixes suffix lines) entries) := by
  refine ⟨?_, ?_, ?_, ?_, ?_,
    fun y sn suffix lines out => runSection_suffix_applied y sn suffix lines out,
    fun y sn suffix lines out => runSection_entries y sn lines suffix out⟩
  · intro y sectionLines hdr sn sec h
    simp [create_org_contents_from_calendar_headers, runHeaders, h]
  · intro y sn suffix line rest s hsent
    have h1 : process_line y sn suffix line = .ok (.sentinel s) := by
      unfold process_line
      rw [hsent]
    simp only [runSection, h1]
  · intro line h1
    simp [sentinelSuffix, h1]
  · intro line h1 h2
    simp [sentinelSuffix, h1, h2]
  · intro line h1 h2 h3
    simp [sentinelSuffix, h1, h2, h3]

/-- Claim C7 witness: a section interleaving sentinel and data lines —
the first entry carries the first-date tag, the second entry the
second-date tag that overwrote it. -/
theorem claim_C7_witness :
    runSection 2026 "FIN" "" ["Primera fecha", "Final de Matemática: lunes 15 de junio"]
      = runSection 2026 "FIN" " (1ra fecha)" ["Final de Matemática: lunes 15 de junio"]
    ∧ sentinelSuffix "Primera fecha" = some " (1ra fecha)"
    ∧ (∀ t ∈ ["**** FIN Final de matemática (1ra fecha)", "<2026-06-15 Mon>"],
        startsStars t → ∃ p, t = p ++ " (1ra fecha)")
    ∧ (∃ entries : List (String × String),
        ["**** FIN Final de matemática (1ra fecha)", "<2026-06-15 Mon>",
         "**** FIN Final de física (2da fecha)", "<2026-07-07 Tue>"]
          = entries.flatMap (fun e => [e.1, e.2]) ∧
        List.Forall₂
          (fun suf e => (∃ p, e.1 = p ++ suf) ∧ startsStars e.1 ∧ ¬ startsStars e.2)
          (entrySuffixes ""
            ["Primera fecha", "Final de Matemática: lunes 15 de junio",
             "Segunda fecha", "Final de Física: martes 7 de julio"])
          entries) :=
  ⟨claim_C7_thm.2.1 2026 "FIN" "" "Primera fecha"
      ["Final de Matemática: lunes 15 de junio"] " (1ra fecha)" (by decide),
   claim_C7_thm.2.2.1 "Primera fecha" (by decide),
   claim_C7_thm.2.2.2.2.2.1 2026 "FIN" " (1ra fecha)"
      ["Final de Matemática: lunes 15 de junio"]
      ["**** FIN Final de matemática (1ra fecha)", "<2026-06-15 Mon>"]
      (by decide) (by decide),
   claim_C7_thm.2.2.2.2.2.2 2026 "FIN" ""
      ["Primera fecha", "Final de Matemática: lunes 15 de junio",
       "Segunda fecha", "Final de Física: martes 7 de julio"]
      ["**** FIN Final de matemática (1ra fecha)", "<2026-06-15 Mon>",
       "**** FIN Final de física (2da fecha)", "<2026-07-07 Tue>"]
      (by decide)⟩
